import Mathlib

/-!
Shallow embedding of the lets-go-rss update core (src/scripts/database.py and
src/scripts/rss_engine.py) and proofs about its specified behavior.

The SQLite store is modelled as an in-memory value (`DB`): the subscriptions
table and the items table are lists of rows, and each store method of
`RSSDatabase` becomes a pure function on `DB`.  SQLite specifics are embedded
as follows: the UNIQUE constraint on subscriptions.url and items.item_id is
the membership test each insert performs; INSERT OR IGNORE is insert-if-absent;
ON CONFLICT via sqlite3.IntegrityError is the find-then-return-id branch;
LIKE matching is case-insensitive ASCII substring containment;
CURRENT_TIMESTAMP is rendered from an explicit clock value.

External collaborators (the stdlib RFC-822 date parser, the classifier, the
regex channel-name cleanup, the per-platform scrapers) are parameters of the
model, exactly as the spec treats them: opaque functions whose results the
core dispatches on.  A Python value that is raised is an `Except.error`
carrying str(e); Python truthiness of optional strings (None and "" are both
falsy) is modelled explicitly wherever the source tests it.
-/

namespace LetsGoRSS

/-- Decimal digit character for n % 10. -/
def digitChar (n : Nat) : Char := Char.ofNat (48 + n % 10)

/-- Model of a Python datetime value at the resolution the program uses. -/
structure DateTime where
  year : Nat
  month : Nat
  day : Nat
  hour : Nat
  minute : Nat
  second : Nat
deriving Repr, DecidableEq

/-- Model of datetime.isoformat(): fixed-width YYYY-MM-DDTHH:MM:SS rendering
(datetime years are 1..9999, so four digits). -/
def DateTime.isoformat (d : DateTime) : String :=
  String.mk [digitChar (d.year / 1000), digitChar (d.year / 100),
             digitChar (d.year / 10), digitChar d.year, '-',
             digitChar (d.month / 10), digitChar d.month, '-',
             digitChar (d.day / 10), digitChar d.day, 'T',
             digitChar (d.hour / 10), digitChar d.hour, ':',
             digitChar (d.minute / 10), digitChar d.minute, ':',
             digitChar (d.second / 10), digitChar d.second]

/-- Model of SQLite CURRENT_TIMESTAMP ("YYYY-MM-DD HH:MM:SS"). -/
def currentTimestamp (d : DateTime) : String :=
  String.mk [digitChar (d.year / 1000), digitChar (d.year / 100),
             digitChar (d.year / 10), digitChar d.year, '-',
             digitChar (d.month / 10), digitChar d.month, '-',
             digitChar (d.day / 10), digitChar d.day, ' ',
             digitChar (d.hour / 10), digitChar d.hour, ':',
             digitChar (d.minute / 10), digitChar d.minute, ':',
             digitChar (d.second / 10), digitChar d.second]

/-- Embedding of the module-level regex _ISO_DATE_RE =
r"^\d\x7b4\x7d-\d\x7b2\x7d-\d\x7b2\x7d[T ]\d\x7b2\x7d:\d\x7b2\x7d" together
with re.match (anchored at the start, rest of the string unconstrained). -/
def isoDateShape (s : String) : Bool :=
  match s.data with
  | y1 :: y2 :: y3 :: y4 :: '-' :: m1 :: m2 :: '-' :: d1 :: d2 :: sep ::
      h1 :: h2 :: ':' :: n1 :: n2 :: _ =>
      y1.isDigit && y2.isDigit && y3.isDigit && y4.isDigit &&
      m1.isDigit && m2.isDigit && d1.isDigit && d2.isDigit &&
      (sep == 'T' || sep == ' ') &&
      h1.isDigit && h2.isDigit && n1.isDigit && n2.isDigit
  | _ => false

/-- Embedding of RSSDatabase._normalize_date.  The stdlib RFC-822 parser
email.utils.parsedate_to_datetime is external to this repository and is a
parameter: `some dt` models a successful parse, `none` models both a raised
exception and a non-datetime return, either of which the except-clause turns
into the verbatim fallback.  `now` is the wall clock read by datetime.now().
The Python argument is Optional[str] and the guard is truthiness
(`if not date_str`), so None and "" take the same branch. -/
def normalize_date (parsedate : String → Option DateTime) (now : DateTime) :
    Option String → String
  | none => now.isoformat
  | some s =>
    if s = "" then now.isoformat
    else if isoDateShape s then s
    else
      match parsedate s with
      | some dt => dt.isoformat
      | none => s

/-- Row of the subscriptions table. -/
structure SubRow where
  id : Nat
  url : String
  platform : String
  title : String
  description : String
  lastUpdated : Option String
  active : Bool
deriving Repr, DecidableEq

/-- Row of the items table.  The metadata column stores json.dumps of the
metadata dict; serialization is kept as the association list itself. -/
structure ItemRow where
  item_id : String
  subscription_id : Nat
  title : String
  description : String
  link : String
  category : String
  pub_date : String
  metadata : Option (List (String × String))
deriving Repr, DecidableEq

/-- The SQLite store.  `nextSubId` models the AUTOINCREMENT counter of the
subscriptions table. -/
structure DB where
  subs : List SubRow
  items : List ItemRow
  nextSubId : Nat
deriving Repr, DecidableEq

/-- Embedding of RSSDatabase.add_subscription: plain INSERT; on the UNIQUE(url)
IntegrityError, SELECT the existing row's id and return it. -/
def add_subscription (db : DB) (url platform title description : String) :
    DB × Nat :=
  match db.subs.find? (fun s => s.url == url) with
  | some s => (db, s.id)
  | none =>
    ({ db with
        subs := db.subs ++
          [{ id := db.nextSubId, url := url, platform := platform,
             title := title, description := description,
             lastUpdated := none, active := true }],
        nextSubId := db.nextSubId + 1 },
     db.nextSubId)

/-- Embedding of RSSDatabase.get_subscriptions. -/
def get_subscriptions (db : DB) (active_only : Bool) : List SubRow :=
  if active_only then db.subs.filter (fun s => s.active) else db.subs

/-- Embedding of RSSDatabase.item_exists (SELECT 1 FROM items WHERE item_id). -/
def item_exists (db : DB) (item_id : String) : Bool :=
  db.items.any (fun r => r.item_id == item_id)

/-- The metadata column value: json.dumps(metadata) if metadata else None —
an absent or empty dict is stored as NULL. -/
def storedMetadata :
    Option (List (String × String)) → Option (List (String × String))
  | none => none
  | some l => if l.isEmpty then none else some l

/-- Embedding of RSSDatabase.add_item: normalize the date, then
INSERT OR IGNORE keyed on UNIQUE(item_id); the return value is
cursor.rowcount > 0, i.e. whether this call created the row. -/
def add_item (parsedate : String → Option DateTime) (now : DateTime)
    (db : DB) (item_id : String) (subscription_id : Nat)
    (title description link category : String)
    (pub_date : Option String) (metadata : Option (List (String × String))) :
    DB × Bool :=
  let normalized_date := normalize_date parsedate now pub_date
  if item_exists db item_id then (db, false)
  else
    ({ db with items := db.items ++
        [{ item_id := item_id, subscription_id := subscription_id,
           title := title, description := description, link := link,
           category := category, pub_date := normalized_date,
           metadata := storedMetadata metadata }] },
     true)

/-- Embedding of RSSDatabase.update_subscription_timestamp
(SET last_updated = CURRENT_TIMESTAMP WHERE id = ?). -/
def update_subscription_timestamp (db : DB) (subscription_id : Nat)
    (now : DateTime) : DB :=
  { db with subs := db.subs.map (fun s =>
      if s.id == subscription_id then
        { s with lastUpdated := some (currentTimestamp now) }
      else s) }

/-- Characters-level check that `p` is an initial segment of the text. -/
def startsWithL : List Char → List Char → Bool
  | _, [] => true
  | [], _ :: _ => false
  | c :: cs, p :: ps => c == p && startsWithL cs ps

/-- Characters-level substring containment. -/
def containsL : List Char → List Char → Bool
  | [], p => p.isEmpty
  | c :: cs, p => startsWithL (c :: cs) p || containsL cs p

/-- ASCII lower-casing of one character (SQLite LIKE folds only ASCII). -/
def lowerChar (c : Char) : Char :=
  if 65 ≤ c.toNat && c.toNat ≤ 90 then Char.ofNat (c.toNat + 32) else c

/-- SQLite LIKE with a pattern of the shape %pat% (pat itself wildcard-free):
substring containment, case-insensitive for ASCII by SQLite default. -/
def sqlLikeContains (hay pat : String) : Bool :=
  containsL (hay.data.map lowerChar) (pat.data.map lowerChar)

/-- The WHERE guard of update_subscription_title:
title LIKE the placeholder pattern OR title = ''. -/
def titleIsPlaceholder (t : String) : Bool :=
  sqlLikeContains t "Subscription" || t == ""

/-- Embedding of RSSDatabase.update_subscription_title
(SET title = ? WHERE id = ? AND (title LIKE placeholder OR title = '')). -/
def update_subscription_title (db : DB) (subscription_id : Nat)
    (title : String) : DB :=
  { db with subs := db.subs.map (fun s =>
      if s.id == subscription_id && titleIsPlaceholder s.title then
        { s with title := title }
      else s) }

/-- Raw item dict produced by a scraper's fetch_items.  item.get("item_id")
is None when the key is absent; the other fields are read with
item.get(field, default). `category` is the slot the orchestrator assigns
before insertion (item["category"] = ...). -/
structure RawItem where
  item_id : Option String
  title : String := ""
  description : String := ""
  link : String := ""
  pub_date : Option String := none
  metadata : Option (List (String × String)) := none
  category : String := "其他"
deriving Repr, DecidableEq

/-- Behavior of one scraper object as observed by the engine: fetch_items
either raises (error carries str(e)) or returns the item list, and the
scraper's last_error attribute as read via getattr after that call. -/
structure Scraper where
  fetch : String → Except String (List RawItem)
  lastErrorAfter : String → Option String

/-- External collaborators and ambient state of one engine run:
the ScraperFactory (get_scraper by platform), the classifier
(classify_item either returns a label or raises), the regex channel-name
cleanup of _fetch_subscription (a pure string transform no claim depends on,
kept opaque), the use_classification flag, the wall clock, and the stdlib
RFC-822 parser used by the store. -/
structure Env where
  getScraper : String → Option Scraper
  classify : String → String → Except String String
  cleanChannel : String → String
  useClassification : Bool
  now : DateTime
  parsedate : String → Option DateTime

/-- Python `a or b` for an optional string a, where None and "" are falsy. -/
def pyOrStr (a : Option String) (b : String) : String :=
  match a with
  | some s => if s = "" then b else s
  | none => b

/-- dict.get on the metadata bag (items[0].get("metadata", \x7b\x7d) or \x7b\x7d). -/
def metaLookup (md : Option (List (String × String))) (k : String) :
    Option String :=
  match md with
  | none => none
  | some l =>
    match l.find? (fun p => p.1 == k) with
    | some p => some p.2
    | none => none

/-- The channel name the orchestrator extracts from the first item:
first_meta.get("_channel_title") or first_meta.get("channel") or "",
then the regex suffix cleanup only when non-empty. -/
def channelNameOf (env : Env) (first : RawItem) : String :=
  let raw := pyOrStr (metaLookup first.metadata "_channel_title")
               (pyOrStr (metaLookup first.metadata "channel") "")
  if raw = "" then raw else env.cleanChannel raw

/-- Category assigned to a new item: "其他" is set first; when classification
is enabled and classify_item succeeds its label replaces it, and any
classification exception is caught leaving the default in place. -/
def classifyCategory (env : Env) (it : RawItem) : String :=
  if env.useClassification then
    match env.classify it.title it.description with
    | .ok c => c
    | .error _ => "其他"
  else "其他"

/-- The per-item loop of RSSEngine._fetch_subscription: skip items with a
falsy item_id (absent or empty), skip items already stored (fast path),
classify, insert atomically, and collect exactly the items whose insert
created a row. -/
def processItems (env : Env) (subscription_id : Nat) :
    DB → List RawItem → DB × List RawItem
  | db, [] => (db, [])
  | db, it :: rest =>
    match it.item_id with
    | none => processItems env subscription_id db rest
    | some k =>
      if k = "" then processItems env subscription_id db rest
      else if item_exists db k then processItems env subscription_id db rest
      else
        let it1 := { it with category := classifyCategory env it }
        let ins := add_item env.parsedate env.now db k subscription_id
                     it1.title it1.description it1.link it1.category
                     it1.pub_date it1.metadata
        let rec2 := processItems env subscription_id ins.1 rest
        (rec2.1, if ins.2 then it1 :: rec2.2 else rec2.2)

/-- Embedding of RSSEngine._fetch_subscription.  A raised exception is an
`Except.error` carrying str(e): the ValueError when no scraper exists for the
platform, anything fetch_items raises, and the RuntimeError re-raising the
scraper's last_error when fetch_items returned an empty list with a truthy
last_error (`if scraper_error:` — None and "" both mean no recorded error).
On a non-empty list the subscription title is back-filled from the first
item's channel name (when non-empty after cleanup) and the items are
processed. -/
def fetch_subscription (env : Env) (db : DB) (subscription_id : Nat)
    (url platform : String) : Except String (DB × List RawItem) :=
  match env.getScraper platform with
  | none => .error ("No scraper available for platform: " ++ platform)
  | some sc =>
    match sc.fetch url with
    | .error e => .error e
    | .ok [] =>
      match sc.lastErrorAfter url with
      | some err => if err = "" then .ok (db, []) else .error err
      | none => .ok (db, [])
    | .ok (first :: rest) =>
      let ch := channelNameOf env first
      let db1 := if ch = "" then db
                 else update_subscription_title db subscription_id ch
      .ok (processItems env subscription_id db1 (first :: rest))

/-- One row of the error summary update_all aggregates per failing task. -/
structure ErrorRow where
  platform : String
  url : String
  error : String
deriving Repr, DecidableEq

/-- The observable aggregate of one run: the results map
(sub id -> (count, error)), the error summary rows, the collected new items,
and the derived totals printed and returned by update_all. -/
structure Summary where
  results : List (Nat × Nat × Option String)
  errorRows : List ErrorRow
  new_items : List RawItem
  total_new : Nat
  errorCount : Nat
  total_subscriptions : Nat
deriving Repr, DecidableEq

/-- The results entry recorded for one finished task: (len(new_items), None)
on success — including success with zero items — and (0, str(e)) on failure. -/
def resultOf : Except String (List RawItem) → Nat × Option String
  | .ok its => (its.length, none)
  | .error e => (0, some e)

/-- The collection step of update_all over the finished tasks:
results/new_items/error_rows accumulation and the derived totals.
errors counts results entries whose error slot is truthy (`if r[1]`), so an
empty error string is not counted.  Subscription ids are the table's primary
key and hence unique, so the Python dict keyed on sub["id"] holds the same
entries as this list. -/
def summarize (total_subscriptions : Nat)
    (recs : List (SubRow × Except String (List RawItem))) : Summary :=
  let results := recs.map (fun q => (q.1.id, resultOf q.2))
  { results := results
    errorRows := recs.filterMap (fun q =>
      match q.2 with
      | .error e =>
        some { platform := q.1.platform, url := q.1.url, error := e }
      | .ok _ => none)
    new_items := (recs.map (fun q =>
      match q.2 with
      | .ok its => its
      | .error _ => [])).flatten
    total_new := (results.map (fun q => q.2.1)).sum
    errorCount := results.countP (fun q =>
      match q.2.2 with
      | some e => !(e == "")
      | none => false)
    total_subscriptions := total_subscriptions }

/-- The fan-out/collect loop of update_all: one task per subscription, each
task's exception caught at the boundary (`except Exception as e`), and
update_subscription_timestamp called only on the success path (it sits inside
the try, after the result is consumed).  The thread pool completes tasks in
an unspecified order and every aggregate below is order-insensitive; the
model runs the tasks in list order, one valid schedule. -/
def runAll (env : Env) :
    DB → List SubRow → DB × List (SubRow × Except String (List RawItem))
  | db, [] => (db, [])
  | db, sub :: rest =>
    match fetch_subscription env db sub.id sub.url sub.platform with
    | .ok (db1, its) =>
      let db2 := update_subscription_timestamp db1 sub.id env.now
      let r := runAll env db2 rest
      (r.1, (sub, .ok its) :: r.2)
    | .error e =>
      let r := runAll env db rest
      (r.1, (sub, .error e) :: r.2)

/-- Embedding of RSSEngine.update_all: snapshot the active subscriptions once,
early-return an empty summary when there are none, otherwise fan out, collect
and aggregate.  Report/feed generation consumes the result read-only and is
outside the model. -/
def update_all (env : Env) (db : DB) : DB × Summary :=
  let subscriptions := get_subscriptions db true
  if subscriptions.isEmpty then
    (db, { results := [], errorRows := [], new_items := [], total_new := 0,
           errorCount := 0, total_subscriptions := 0 })
  else
    let r := runAll env db subscriptions
    (r.1, summarize subscriptions.length r.2)

/-- State of the advisory run lock: the holder's pid and start line, if any. -/
structure LockState where
  holder : Option (Nat × String)
deriving Repr, DecidableEq

/-- The message of the RuntimeError update_lock raises when
flock(LOCK_EX | LOCK_NB) reports BlockingIOError. -/
def alreadyRunningMsg (lock_path : String) : String :=
  "Another update is already running (lock: " ++ lock_path ++ ")"

/-- Acquisition step of update_lock: flock with LOCK_NB returns immediately —
when the lock is free it is taken (and the holder's pid/start time written to
the lock file), when another holder exists BlockingIOError is turned into the
already-running RuntimeError, with no blocking wait in either case. -/
def acquire_or_fail (st : LockState) (lock_path : String) (pid : Nat)
    (started : String) : Except String LockState :=
  match st.holder with
  | some _ => .error (alreadyRunningMsg lock_path)
  | none => .ok { holder := some (pid, started) }

/-- Release step of update_lock's finally block (LOCK_UN then close), reached
on every exit path of the with-statement: normal return, exception,
cancellation. -/
def release (_st : LockState) : LockState :=
  { holder := none }

/-- The with-statement semantics of update_lock around a body: acquire or
fail fast; when acquired, the finally block releases the lock whether the
body returned a value or raised. -/
def withUpdateLock (st : LockState) (lock_path : String) (pid : Nat)
    (started : String) (body : Except String Unit) :
    Except String Unit × LockState :=
  match acquire_or_fail st lock_path pid started with
  | .error e => (.error e, st)
  | .ok held => (body, release held)

/-- The top-level exception handler of main: a message containing the
already-running text is printed and swallowed (process exit code 0, a benign
return), any other exception exits with code 1. -/
def mainExceptionExitCode (msg : String) : Nat :=
  if containsL msg.data "Another update is already running".data then 0 else 1

/-! Concrete fixtures used by witnesses and counterexamples. -/

/-- A concrete clock value. -/
def dt0 : DateTime := ⟨2026, 2, 11, 9, 0, 0⟩

/-- A scraper whose fetch always raises. -/
def scraperRaise : Scraper :=
  { fetch := fun _ => .error "boom", lastErrorAfter := fun _ => none }

/-- A scraper whose fetch raises an exception with empty str(e). -/
def scraperRaiseEmptyMsg : Scraper :=
  { fetch := fun _ => .error "", lastErrorAfter := fun _ => none }

/-- A scraper returning an empty list with a recorded last_error. -/
def scraperEmptyWithErr : Scraper :=
  { fetch := fun _ => .ok [], lastErrorAfter := fun _ => some "feed down" }

/-- A scraper returning an empty list with no recorded error. -/
def scraperEmptyClean : Scraper :=
  { fetch := fun _ => .ok [], lastErrorAfter := fun _ => none }

/-- A scraper returning one well-formed item. -/
def scraperOneItem : Scraper :=
  { fetch := fun _ => .ok [{ item_id := some "k1", title := "t1" }],
    lastErrorAfter := fun _ => none }

/-- An environment whose every platform resolves to the given scraper. -/
def envOf (sc : Scraper) : Env :=
  { getScraper := fun _ => some sc
    classify := fun _ _ => .ok "科技"
    cleanChannel := fun s => s
    useClassification := false
    now := dt0
    parsedate := fun _ => none }

/-- A concrete active subscription row. -/
def subA : SubRow :=
  ⟨1, "https://example.com/a", "vimeo", "Vimeo Subscription", "", none, true⟩

/-- A second concrete active subscription row. -/
def subB : SubRow :=
  ⟨2, "https://example.com/b", "weibo", "Weibo Subscription", "", none, true⟩

/-- A store holding only subA. -/
def dbA : DB := ⟨[subA], [], 3⟩

/-- A store holding subA and subB. -/
def dbAB : DB := ⟨[subA, subB], [], 3⟩

deriving instance DecidableEq for Except

/-! Shared helper lemmas. -/

/-- add_item never touches the subscriptions table. -/
theorem add_item_subs (pd : String → Option DateTime) (now : DateTime)
    (db : DB) (k : String) (sid : Nat) (t d l c : String)
    (p : Option String) (m : Option (List (String × String))) :
    (add_item pd now db k sid t d l c p m).1.subs = db.subs := by
  cases h : item_exists db k <;> simp [add_item, h]

/-- With a fresh key, add_item appends exactly the normalized row. -/
theorem add_item_fst_of_fresh (pd : String → Option DateTime)
    (now : DateTime) (db : DB) (k : String) (sid : Nat) (t d l c : String)
    (p : Option String) (m : Option (List (String × String)))
    (hex : item_exists db k = false) :
    (add_item pd now db k sid t d l c p m).1 =
      { db with items := db.items ++
          [{ item_id := k, subscription_id := sid, title := t,
             description := d, link := l, category := c,
             pub_date := normalize_date pd now p,
             metadata := storedMetadata m }] } := by
  simp [add_item, hex]

/-- With a stored key, add_item leaves the store unchanged. -/
theorem add_item_fst_of_stored (pd : String → Option DateTime)
    (now : DateTime) (db : DB) (k : String) (sid : Nat) (t d l c : String)
    (p : Option String) (m : Option (List (String × String)))
    (hex : item_exists db k = true) :
    (add_item pd now db k sid t d l c p m).1 = db := by
  simp [add_item, hex]

/-- After a fresh-key add_item the key is stored. -/
theorem item_exists_add_item_self (pd : String → Option DateTime)
    (now : DateTime) (db : DB) (k : String) (sid : Nat) (t d l c : String)
    (p : Option String) (m : Option (List (String × String)))
    (hex : item_exists db k = false) :
    item_exists (add_item pd now db k sid t d l c p m).1 k = true := by
  rw [add_item_fst_of_fresh pd now db k sid t d l c p m hex]
  simp [item_exists, List.any_append]

/-- add_item only ever appends rows: stored keys stay stored. -/
theorem item_exists_add_item_mono (pd : String → Option DateTime)
    (now : DateTime) (db : DB) (k k2 : String) (sid : Nat) (t d l c : String)
    (p : Option String) (m : Option (List (String × String)))
    (h : item_exists db k = true) :
    item_exists (add_item pd now db k2 sid t d l c p m).1 k = true := by
  cases h2 : item_exists db k2 with
  | true => rw [add_item_fst_of_stored pd now db k2 sid t d l c p m h2]; exact h
  | false =>
    rw [add_item_fst_of_fresh pd now db k2 sid t d l c p m h2]
    simp only [item_exists] at h ⊢
    simp [List.any_append, h]

/-- The item loop never touches the subscriptions table. -/
theorem processItems_subs (env : Env) (sid : Nat) :
    ∀ (l : List RawItem) (db : DB),
      (processItems env sid db l).1.subs = db.subs := by
  intro l
  induction l with
  | nil => intro db; rfl
  | cons it rest ih =>
    intro db
    cases hid : it.item_id with
    | none => simp [processItems, hid, ih]
    | some k =>
      by_cases hk : k = ""
      · simp [processItems, hid, hk, ih]
      · cases hex : item_exists db k with
        | true => simp [processItems, hid, hk, hex, ih]
        | false => simp [processItems, hid, hk, hex, ih, add_item_subs]

/-- The item loop only ever appends rows: stored keys stay stored. -/
theorem item_exists_processItems_mono (env : Env) (sid : Nat) :
    ∀ (l : List RawItem) (db : DB) (k : String),
      item_exists db k = true →
      item_exists (processItems env sid db l).1 k = true := by
  intro l
  induction l with
  | nil => intro db k h; exact h
  | cons it rest ih =>
    intro db k h
    cases hid : it.item_id with
    | none => simpa [processItems, hid] using ih db k h
    | some k0 =>
      by_cases hk : k0 = ""
      · simpa [processItems, hid, hk] using ih db k h
      · cases hex : item_exists db k0 with
        | true => simpa [processItems, hid, hk, hex] using ih db k h
        | false =>
          simpa [processItems, hid, hk, hex] using
            ih _ k (item_exists_add_item_mono _ _ db k k0 sid _ _ _ _ _ _ h)

/-- Items with a falsy item_id (absent or empty) are skipped outright by the
item loop. -/
theorem processItems_skip_eq (env : Env) (sid : Nat) (db : DB) (it : RawItem)
    (rest : List RawItem) (hid : it.item_id = none ∨ it.item_id = some "") :
    processItems env sid db (it :: rest) = processItems env sid db rest := by
  rcases hid with hid | hid <;> simp [processItems, hid]

/-- Unfolding of the item loop at a fresh keyed item: the insert succeeds and
the classified item is collected. -/
theorem processItems_cons_new (env : Env) (sid : Nat) (db : DB)
    (it0 : RawItem) (rest : List RawItem) (k0 : String)
    (hid : it0.item_id = some k0) (hk : ¬ k0 = "")
    (hex : item_exists db k0 = false) :
    processItems env sid db (it0 :: rest) =
      ((processItems env sid
          (add_item env.parsedate env.now db k0 sid it0.title it0.description
            it0.link (classifyCategory env it0) it0.pub_date it0.metadata).1
          rest).1,
        { it0 with category := classifyCategory env it0 } ::
          (processItems env sid
            (add_item env.parsedate env.now db k0 sid it0.title
              it0.description it0.link (classifyCategory env it0)
              it0.pub_date it0.metadata).1 rest).2) := by
  have h2 : (add_item env.parsedate env.now db k0 sid it0.title
      it0.description it0.link (classifyCategory env it0) it0.pub_date
      it0.metadata).2 = true := by
    simp [add_item, hex]
  simp [processItems, hid, hk, hex, h2]

/-- Every item collected by the item loop carries a non-empty key that was
fresh before the loop and is stored after it. -/
theorem processItems_mem_spec (env : Env) (sid : Nat) :
    ∀ (l : List RawItem) (db : DB), ∀ it ∈ (processItems env sid db l).2,
      ∃ k, it.item_id = some k ∧ k ≠ "" ∧ item_exists db k = false ∧
        item_exists (processItems env sid db l).1 k = true := by
  intro l
  induction l with
  | nil => intro db it hit; simp [processItems] at hit
  | cons it0 rest ih =>
    intro db it hit
    cases hid : it0.item_id with
    | none =>
      rw [processItems_skip_eq env sid db it0 rest (Or.inl hid)] at hit ⊢
      exact ih db it hit
    | some k0 =>
      by_cases hk : k0 = ""
      · subst hk
        rw [processItems_skip_eq env sid db it0 rest (Or.inr hid)] at hit ⊢
        exact ih db it hit
      · cases hex : item_exists db k0 with
        | true =>
          have heq : processItems env sid db (it0 :: rest) =
              processItems env sid db rest := by
            simp [processItems, hid, hk, hex]
          rw [heq] at hit ⊢
          exact ih db it hit
        | false =>
          rw [processItems_cons_new env sid db it0 rest k0 hid hk hex] at hit ⊢
          rcases List.mem_cons.mp hit with hit | hit
          · subst hit
            refine ⟨k0, by simpa using hid, hk, hex, ?_⟩
            exact item_exists_processItems_mono env sid rest _ k0
              (item_exists_add_item_self env.parsedate env.now db k0 sid
                it0.title it0.description it0.link (classifyCategory env it0)
                it0.pub_date it0.metadata hex)
          · obtain ⟨k, hk1, hk2, hfresh, hstored⟩ := ih _ it hit
            refine ⟨k, hk1, hk2, ?_, hstored⟩
            cases hdb : item_exists db k with
            | false => rfl
            | true =>
              have hmono := item_exists_add_item_mono env.parsedate env.now
                db k k0 sid it0.title it0.description it0.link
                (classifyCategory env it0) it0.pub_date it0.metadata hdb
              simp [hmono] at hfresh

/-- isoformat renders a fixed 19-character string, hence never the empty one. -/
theorem isoformat_ne_empty (d : DateTime) : d.isoformat ≠ "" := by
  intro h
  simpa [DateTime.isoformat] using congrArg String.data h

/-- A map that fixes every element of a list fixes the list. -/
theorem map_eq_self_of_eq {α : Type} (f : α → α) (l : List α)
    (h : ∀ a ∈ l, f a = a) : l.map f = l := by
  induction l with
  | nil => rfl
  | cons a l ih =>
    simp only [List.map_cons, h a (by simp)]
    rw [ih (fun b hb => h b (by simp [hb]))]

/-! Theorems for the claims. -/

/-- C1: for a key k not yet stored, calling add_item twice with k results in
exactly one stored row for k: the first call returns true and appends the
row, the second call returns false and leaves the store unchanged, and the
row for k keeps the first call's field values. -/
theorem add_item_duplicate_key_single_row
    (pd : String → Option DateTime) (now : DateTime) (db : DB) (k : String)
    (sid1 sid2 : Nat) (t1 d1 l1 c1 t2 d2 l2 c2 : String)
    (p1 p2 : Option String) (m1 m2 : Option (List (String × String)))
    (h : item_exists db k = false) :
    (add_item pd now db k sid1 t1 d1 l1 c1 p1 m1).2 = true ∧
    (add_item pd now (add_item pd now db k sid1 t1 d1 l1 c1 p1 m1).1
        k sid2 t2 d2 l2 c2 p2 m2).2 = false ∧
    (add_item pd now (add_item pd now db k sid1 t1 d1 l1 c1 p1 m1).1
        k sid2 t2 d2 l2 c2 p2 m2).1 =
      (add_item pd now db k sid1 t1 d1 l1 c1 p1 m1).1 ∧
    (add_item pd now db k sid1 t1 d1 l1 c1 p1 m1).1.items.filter
        (fun r => r.item_id == k) =
      [{ item_id := k, subscription_id := sid1, title := t1,
         description := d1, link := l1, category := c1,
         pub_date := normalize_date pd now p1,
         metadata := storedMetadata m1 }] := by
  have h1 : add_item pd now db k sid1 t1 d1 l1 c1 p1 m1 =
      ({ db with items := db.items ++
          [{ item_id := k, subscription_id := sid1, title := t1,
             description := d1, link := l1, category := c1,
             pub_date := normalize_date pd now p1,
             metadata := storedMetadata m1 }] }, true) := by
    simp [add_item, h]
  have hnil : db.items.filter (fun r => r.item_id == k) = [] := by
    rw [List.filter_eq_nil_iff]
    intro r hr
    simp only [item_exists, List.any_eq_false] at h
    simpa using h r hr
  rw [h1]
  refine ⟨rfl, ?_, ?_, ?_⟩
  · simp [add_item, item_exists]
  · simp [add_item, item_exists]
  · simp [List.filter_append, hnil]

/-- C1 witness: a concrete fresh key behaves as the theorem states. -/
theorem add_item_duplicate_key_single_row_witness :
    (add_item (fun _ => none) dt0 ⟨[], [], 0⟩ "k1" 7 "t" "d" "l" "c"
        none none).2 = true :=
  (add_item_duplicate_key_single_row (fun _ => none) dt0 ⟨[], [], 0⟩ "k1" 7 7
    "t" "d" "l" "c" "t" "d" "l" "c" none none none none (by decide)).1

/-- C5: adding a URL that already has a subscription row returns the existing
row's id and leaves the store unchanged; hence adding the same URL twice
returns the same id both times and the second call creates no row. -/
theorem add_subscription_idempotent (db : DB)
    (url p t d p2 t2 d2 : String) :
    (∀ s, db.subs.find? (fun r => r.url == url) = some s →
        add_subscription db url p t d = (db, s.id)) ∧
    (add_subscription (add_subscription db url p t d).1 url p2 t2 d2).2 =
      (add_subscription db url p t d).2 ∧
    (add_subscription (add_subscription db url p t d).1 url p2 t2 d2).1 =
      (add_subscription db url p t d).1 := by
  cases hf : db.subs.find? (fun r => r.url == url) with
  | some s =>
    refine ⟨fun s' hs' => ?_, ?_, ?_⟩
    · injection hs' with hss
      subst hss
      simp [add_subscription, hf]
    · simp [add_subscription, hf]
    · simp [add_subscription, hf]
  | none =>
    refine ⟨fun s' hs' => ?_, ?_, ?_⟩
    · simp at hs'
    · simp [add_subscription, hf, List.find?_append, List.find?]
    · simp [add_subscription, hf, List.find?_append, List.find?]

/-- C5 witness: re-adding a concrete existing URL returns its id. -/
theorem add_subscription_idempotent_witness :
    add_subscription dbA "https://example.com/a" "vimeo" "x" "y" =
      (dbA, 1) :=
  (add_subscription_idempotent dbA "https://example.com/a" "vimeo" "x" "y"
    "" "" "").1 subA (by decide)

/-- C6: for a non-empty date string, an already-canonical (ISO-shaped) string
is returned unchanged; a non-canonical string the RFC-822 parser accepts is
rewritten to that datetime's canonical isoformat; and a string the parser
rejects is returned verbatim instead of raising. -/
theorem normalize_date_policy (pd : String → Option DateTime)
    (now : DateTime) (s : String) (hs : s ≠ "") :
    (isoDateShape s = true → normalize_date pd now (some s) = s) ∧
    (isoDateShape s = false → ∀ dt, pd s = some dt →
        normalize_date pd now (some s) = dt.isoformat) ∧
    (isoDateShape s = false → pd s = none →
        normalize_date pd now (some s) = s) := by
  refine ⟨fun hiso => ?_, fun hiso dt hdt => ?_, fun hiso hnone => ?_⟩ <;>
    simp [normalize_date, hs, hiso, *]

/-- C6 witness: a concrete canonical string passes through unchanged. -/
theorem normalize_date_policy_witness :
    normalize_date (fun _ => none) dt0 (some "2026-02-11T09:00:00") =
      "2026-02-11T09:00:00" :=
  (normalize_date_policy (fun _ => none) dt0 "2026-02-11T09:00:00"
    (by decide)).1 (by decide)

/-- C8: update_subscription_title rewrites the addressed subscription's title
only when the current title is a system-generated placeholder (contains
"Subscription" case-insensitively, or is empty); a non-placeholder title is
kept verbatim, rows with other ids are untouched, and when no addressed row
has a placeholder title the whole store is unchanged. -/
theorem update_subscription_title_placeholder_guard (db : DB) (i : Nat)
    (t : String) :
    (∀ s ∈ db.subs, s.id = i → titleIsPlaceholder s.title = false →
        s ∈ (update_subscription_title db i t).subs) ∧
    (∀ s ∈ db.subs, s.id = i → titleIsPlaceholder s.title = true →
        { s with title := t } ∈ (update_subscription_title db i t).subs) ∧
    (∀ s ∈ db.subs, s.id ≠ i → s ∈ (update_subscription_title db i t).subs) ∧
    ((∀ s ∈ db.subs, s.id = i → titleIsPlaceholder s.title = false) →
        update_subscription_title db i t = db) := by
  refine ⟨fun s hs hid hpl => ?_, fun s hs hid hpl => ?_,
          fun s hs hid => ?_, fun hall => ?_⟩
  · exact List.mem_map.mpr ⟨s, hs, by simp [hid, hpl]⟩
  · exact List.mem_map.mpr ⟨s, hs, by simp [hid, hpl]⟩
  · exact List.mem_map.mpr ⟨s, hs, by simp [hid]⟩
  · have hmap : db.subs.map (fun s =>
        if s.id == i && titleIsPlaceholder s.title then { s with title := t }
        else s) = db.subs := by
      apply map_eq_self_of_eq
      intro s hs
      by_cases hid : s.id = i
      · simp [hid, hall s hs hid]
      · simp [hid]
    show ({ db with subs := db.subs.map (fun s =>
        if s.id == i && titleIsPlaceholder s.title then { s with title := t }
        else s) } : DB) = db
    rw [hmap]

/-- C8 witness: a concrete user-curated title survives, a concrete
placeholder title is rewritten. -/
theorem update_subscription_title_placeholder_guard_witness :
    ({ id := 1, url := "https://example.com/a", platform := "vimeo",
       title := "My Channel", description := "", lastUpdated := none,
       active := true } : SubRow) ∈
      (update_subscription_title
        ⟨[{ id := 1, url := "https://example.com/a", platform := "vimeo",
            title := "My Channel", description := "", lastUpdated := none,
            active := true }], [], 2⟩ 1 "New Name").subs :=
  (update_subscription_title_placeholder_guard
    ⟨[{ id := 1, url := "https://example.com/a", platform := "vimeo",
        title := "My Channel", description := "", lastUpdated := none,
        active := true }], [], 2⟩ 1 "New Name").1
    _ (by simp) rfl (by decide)

/-- C9: add_item with a missing publish date (None or the empty string) and a
fresh key stores the current wall-clock time in canonical ISO form as the
row's pub_date — a non-empty value that is not the input. -/
theorem add_item_missing_pub_date_uses_clock
    (pd : String → Option DateTime) (now : DateTime) (db : DB) (k : String)
    (sid : Nat) (t d l c : String) (md : Option (List (String × String)))
    (pdate : Option String)
    (hp : pdate = none ∨ pdate = some "")
    (h : item_exists db k = false) :
    (add_item pd now db k sid t d l c pdate md).1.items =
      db.items ++
        [{ item_id := k, subscription_id := sid, title := t,
           description := d, link := l, category := c,
           pub_date := now.isoformat, metadata := storedMetadata md }] ∧
    now.isoformat ≠ "" ∧ pdate ≠ some now.isoformat := by
  have hnd : normalize_date pd now pdate = now.isoformat := by
    rcases hp with hp | hp <;> simp [hp, normalize_date]
  refine ⟨by simp [add_item, h, hnd], isoformat_ne_empty now, ?_⟩
  rcases hp with hp | hp <;> simp [hp]
  exact fun hcontra => isoformat_ne_empty now hcontra.symm

/-- C9 witness: a concrete add_item call with pub_date None stores the
clock's isoformat. -/
theorem add_item_missing_pub_date_uses_clock_witness :
    (add_item (fun _ => none) dt0 ⟨[], [], 0⟩ "k9" 1 "t" "" "" ""
        none none).1.items =
      [{ item_id := "k9", subscription_id := 1, title := "t",
         description := "", link := "", category := "",
         pub_date := dt0.isoformat, metadata := none }] := by
  simpa using (add_item_missing_pub_date_uses_clock (fun _ => none) dt0
    ⟨[], [], 0⟩ "k9" 1 "t" "" "" "" none none (Or.inl rfl) (by decide)).1

/-- C10: a raw item lacking an item key (no item_id or an empty one) is
silently skipped by the orchestrator's item loop — never classified, never
passed to the store insert, never collected — and every item in the returned
new-item list carries a key whose insert actually created a new row (fresh
before the loop, stored after it). -/
theorem processItems_skips_keyless_items :
    (∀ (env : Env) (sid : Nat) (db : DB) (it : RawItem)
        (rest : List RawItem),
        it.item_id = none ∨ it.item_id = some "" →
        processItems env sid db (it :: rest) =
          processItems env sid db rest) ∧
    (∀ (env : Env) (sid : Nat) (db : DB) (l : List RawItem),
        ∀ it ∈ (processItems env sid db l).2,
          ∃ k, it.item_id = some k ∧ k ≠ "" ∧ item_exists db k = false ∧
            item_exists (processItems env sid db l).1 k = true) :=
  ⟨fun env sid db it rest hid => processItems_skip_eq env sid db it rest hid,
   fun env sid db l => processItems_mem_spec env sid l db⟩

/-- C10 witness: a concrete keyless item is dropped by the loop. -/
theorem processItems_skips_keyless_items_witness :
    processItems (envOf scraperOneItem) 1 dbA
        [{ item_id := none, title := "ghost" }] =
      processItems (envOf scraperOneItem) 1 dbA [] :=
  processItems_skips_keyless_items.1 (envOf scraperOneItem) 1 dbA
    { item_id := none, title := "ghost" } [] (Or.inl rfl)

/-- C3: when fetch_items returns an empty list, a recorded (truthy)
last_error makes the task a failure — the error is raised to the
orchestrator's collection step, lands in the error summary and is counted —
while an empty result with no recorded error (the source's truthiness check:
last_error None or empty) is a successful no-op whose result entry reports
zero new items. -/
theorem fetch_subscription_empty_result_dispatch
    (env : Env) (db : DB) (sub : SubRow) (sc : Scraper)
    (hsc : env.getScraper sub.platform = some sc)
    (hfetch : sc.fetch sub.url = .ok []) :
    (∀ e, sc.lastErrorAfter sub.url = some e → e ≠ "" →
        fetch_subscription env db sub.id sub.url sub.platform =
          .error e ∧
        (summarize 1 (runAll env db [sub]).2).errorRows =
          [{ platform := sub.platform, url := sub.url, error := e }] ∧
        (summarize 1 (runAll env db [sub]).2).errorCount = 1) ∧
    (sc.lastErrorAfter sub.url = none ∨
        sc.lastErrorAfter sub.url = some "" →
        fetch_subscription env db sub.id sub.url sub.platform =
          .ok (db, []) ∧
        (summarize 1 (runAll env db [sub]).2).results =
          [(sub.id, 0, none)]) := by
  constructor
  · intro e he hne
    have hfs : fetch_subscription env db sub.id sub.url sub.platform =
        .error e := by
      simp [fetch_subscription, hsc, hfetch, he, hne]
    refine ⟨hfs, ?_, ?_⟩ <;> simp [runAll, hfs, summarize, resultOf, hne]
  · intro hfalsy
    have hfs : fetch_subscription env db sub.id sub.url sub.platform =
        .ok (db, []) := by
      rcases hfalsy with hle | hle <;> simp [fetch_subscription, hsc, hfetch, hle]
    exact ⟨hfs, by simp [runAll, hfs, summarize, resultOf]⟩

/-- C3 witness: a concrete empty fetch with recorded error raises it. -/
theorem fetch_subscription_empty_result_dispatch_witness :
    fetch_subscription (envOf scraperEmptyWithErr) dbA subA.id subA.url
        subA.platform = .error "feed down" :=
  ((fetch_subscription_empty_result_dispatch (envOf scraperEmptyWithErr) dbA
      subA scraperEmptyWithErr rfl rfl).1 "feed down" rfl (by decide)).1

/-- Every subscription of the snapshot yields exactly one collected record,
in order. -/
theorem runAll_map_fst (env : Env) :
    ∀ (subs : List SubRow) (db : DB),
      ((runAll env db subs).2).map Prod.fst = subs := by
  intro subs
  induction subs with
  | nil => intro db; rfl
  | cons sub rest ih =>
    intro db
    cases hfs : fetch_subscription env db sub.id sub.url sub.platform with
    | ok p => simp [runAll, hfs, ih]
    | error e => simp [runAll, hfs, ih]

/-- An environment where the vimeo platform resolves to a clean-empty scraper
and every other platform to a scraper raising an exception with empty text. -/
def envC2 : Env :=
  { getScraper := fun p =>
      if p = "vimeo" then some scraperEmptyClean else some scraperRaiseEmptyMsg
    classify := fun _ _ => .ok "其他"
    cleanChannel := fun s => s
    useClassification := false
    now := dt0
    parsedate := fun _ => none }

/-- C2 counterexample: subscription A is a clean no-op and subscription B's
adapter raises an exception whose text is empty.  The run does not raise and
B's failure is recorded in the error summary, but the error count — computed
with Python truthiness over str(e) — stays 0, so the failure is recorded yet
not counted, contradicting the claim as stated. -/
theorem update_all_empty_error_text_not_counted :
    (update_all envC2 dbAB).2.errorRows =
      [{ platform := "weibo", url := "https://example.com/b",
         error := "" }] ∧
    (update_all envC2 dbAB).2.errorCount = 0 ∧
    (update_all envC2 dbAB).2.results =
      [(1, 0, none), (2, 0, some "")] := by decide

/-- C2 amended: update_all catches every task's exception at the per-task
boundary (the collection loop is total over the snapshot): every subscription
yields exactly one result entry, each failing task is recorded in the error
summary with its platform, URL and error text, each successful task is
reported with its new-item count, and the error count equals the number of
failed tasks whose error text is non-empty. -/
theorem update_all_isolates_task_failures (env : Env) (db : DB)
    (hne : get_subscriptions db true ≠ []) :
    update_all env db =
      ((runAll env db (get_subscriptions db true)).1,
        summarize (get_subscriptions db true).length
          (runAll env db (get_subscriptions db true)).2) ∧
    ((runAll env db (get_subscriptions db true)).2).map Prod.fst =
      get_subscriptions db true ∧
    (∀ q ∈ (runAll env db (get_subscriptions db true)).2, ∀ e,
        q.2 = .error e →
        ({ platform := q.1.platform, url := q.1.url, error := e } :
            ErrorRow) ∈
          (summarize (get_subscriptions db true).length
            (runAll env db (get_subscriptions db true)).2).errorRows) ∧
    (∀ q ∈ (runAll env db (get_subscriptions db true)).2, ∀ its,
        q.2 = .ok its →
        (q.1.id, its.length, (none : Option String)) ∈
          (summarize (get_subscriptions db true).length
            (runAll env db (get_subscriptions db true)).2).results) ∧
    (summarize (get_subscriptions db true).length
        (runAll env db (get_subscriptions db true)).2).errorCount =
      ((runAll env db (get_subscriptions db true)).2).countP
        (fun q => match q.2 with
                  | .error e => !(e == "")
                  | .ok _ => false) := by
  refine ⟨?_, runAll_map_fst env (get_subscriptions db true) db, ?_, ?_, ?_⟩
  · rcases hs : get_subscriptions db true with _ | ⟨a, as⟩
    · exact absurd hs hne
    · simp only [update_all]
      rw [hs]
      simp
  · intro q hq e he
    simp only [summarize]
    exact List.mem_filterMap.mpr ⟨q, hq, by simp [he]⟩
  · intro q hq its hits
    simp only [summarize]
    exact List.mem_map.mpr ⟨q, hq, by simp [resultOf, hits]⟩
  · have hfun : ((fun q : Nat × Nat × Option String =>
        match q.2.2 with
        | some e => !(e == "")
        | none => false) ∘
          (fun q : SubRow × Except String (List RawItem) =>
            (q.1.id, resultOf q.2))) =
        (fun q : SubRow × Except String (List RawItem) =>
          match q.2 with
          | .error e => !(e == "")
          | .ok _ => false) := by
      funext q
      cases hq2 : q.2 <;> simp [Function.comp, resultOf, hq2]
    simp only [summarize]
    rw [List.countP_map, hfun]

/-- C2 amended witness: a concrete raising adapter lands in the summary. -/
theorem update_all_isolates_task_failures_witness :
    ({ platform := "vimeo", url := "https://example.com/a",
        error := "boom" } : ErrorRow) ∈
      (summarize (get_subscriptions dbA true).length
        (runAll (envOf scraperRaise) dbA
          (get_subscriptions dbA true)).2).errorRows :=
  (update_all_isolates_task_failures (envOf scraperRaise) dbA
      (by decide)).2.2.1 (subA, Except.error "boom") (by decide) "boom" rfl

/-- C4 counterexample: a single subscription whose adapter raises.  The task
fails (its error row is recorded) yet the subscription's last_updated is NOT
advanced — it stays NULL after the run, because the timestamp update sits on
the success path only. -/
theorem update_all_failed_fetch_keeps_timestamp_cex :
    (update_all (envOf scraperRaise) dbA).2.errorRows =
      [{ platform := "vimeo", url := "https://example.com/a",
         error := "boom" }] ∧
    (update_all (envOf scraperRaise) dbA).1.subs.map SubRow.lastUpdated =
      [none] := by decide

/-- The last_updated values stored for subscription rows with a given id, in
table order. -/
def luById (db : DB) (i : Nat) : List (Option String) :=
  db.subs.filterMap (fun s => if s.id == i then some s.lastUpdated else none)

/-- luById only reads the subscriptions table. -/
theorem luById_congr_subs {db1 db2 : DB} (h : db1.subs = db2.subs)
    (i : Nat) : luById db1 i = luById db2 i := by
  simp [luById, h]

/-- The title back-fill never changes ids or last_updated values. -/
theorem luById_update_title (db : DB) (j : Nat) (t : String) (i : Nat) :
    luById (update_subscription_title db j t) i = luById db i := by
  simp only [luById, update_subscription_title, List.filterMap_map]
  congr 1
  funext s
  by_cases h : (s.id == j && titleIsPlaceholder s.title) = true <;>
    simp [Function.comp, h]

/-- Advancing the timestamp of one id leaves every other id's last_updated
values unchanged. -/
theorem luById_update_timestamp_ne (db : DB) (j : Nat) (now : DateTime)
    (i : Nat) (h : j ≠ i) :
    luById (update_subscription_timestamp db j now) i = luById db i := by
  simp only [luById, update_subscription_timestamp, List.filterMap_map]
  congr 1
  funext s
  by_cases hj : s.id = j
  · simp [Function.comp, hj, h]
  · simp [Function.comp, hj]

/-- A successful fetch task never changes any id's last_updated values (the
only subscription write on that path is the title back-fill). -/
theorem fetch_subscription_ok_luById (env : Env) (db : DB) (sid : Nat)
    (url pf : String) (i : Nat) :
    ∀ (db2 : DB) (its : List RawItem),
      fetch_subscription env db sid url pf = .ok (db2, its) →
      luById db2 i = luById db i := by
  intro db2 its h
  cases hsc : env.getScraper pf with
  | none =>
    rw [show fetch_subscription env db sid url pf =
        .error ("No scraper available for platform: " ++ pf) from by
      simp [fetch_subscription, hsc]] at h
    simp at h
  | some sc =>
    cases hf : sc.fetch url with
    | error e =>
      rw [show fetch_subscription env db sid url pf = .error e from by
        simp [fetch_subscription, hsc, hf]] at h
      simp at h
    | ok l =>
      cases l with
      | nil =>
        cases hle : sc.lastErrorAfter url with
        | some err =>
          by_cases he : err = ""
          · rw [show fetch_subscription env db sid url pf = .ok (db, [])
                from by simp [fetch_subscription, hsc, hf, hle, he]] at h
            injection h with h'
            injection h' with h1 h2
            rw [← h1]
          · rw [show fetch_subscription env db sid url pf = .error err
                from by simp [fetch_subscription, hsc, hf, hle, he]] at h
            simp at h
        | none =>
          rw [show fetch_subscription env db sid url pf = .ok (db, [])
              from by simp [fetch_subscription, hsc, hf, hle]] at h
          injection h with h'
          injection h' with h1 h2
          rw [← h1]
      | cons first rest =>
        rw [show fetch_subscription env db sid url pf =
            .ok (processItems env sid
              (if channelNameOf env first = "" then db
               else update_subscription_title db sid
                 (channelNameOf env first)) (first :: rest)) from by
          simp [fetch_subscription, hsc, hf]] at h
        injection h with h'
        have h1 : db2 = (processItems env sid
            (if channelNameOf env first = "" then db
             else update_subscription_title db sid (channelNameOf env first))
            (first :: rest)).1 := by rw [h']
        rw [h1]
        have hsubs := processItems_subs env sid (first :: rest)
          (if channelNameOf env first = "" then db
           else update_subscription_title db sid (channelNameOf env first))
        rw [luById_congr_subs hsubs i]
        by_cases hch : channelNameOf env first = ""
        · rw [if_pos hch]
        · rw [if_neg hch, luById_update_title]

/-- C4 amended: a subscription all of whose fetch tasks in the run fail keeps
its last_updated values unchanged through the whole run — the orchestrator
advances the timestamp only on the success path of the collection loop. -/
theorem runAll_failed_tasks_keep_last_updated (env : Env) (i : Nat) :
    ∀ (subs : List SubRow) (db : DB),
      (∀ q ∈ (runAll env db subs).2, q.1.id = i →
          ∃ e, q.2 = Except.error e) →
      luById (runAll env db subs).1 i = luById db i := by
  intro subs
  induction subs with
  | nil => intro db _; rfl
  | cons sub rest ih =>
    intro db h
    cases hfs : fetch_subscription env db sub.id sub.url sub.platform with
    | error e =>
      have hrw : runAll env db (sub :: rest) =
          ((runAll env db rest).1,
            (sub, .error e) :: (runAll env db rest).2) := by
        simp [runAll, hfs]
      rw [hrw] at h ⊢
      exact ih db (fun q hq hqi => h q (List.mem_cons_of_mem _ hq) hqi)
    | ok p =>
      obtain ⟨db1, its⟩ := p
      have hrw : runAll env db (sub :: rest) =
          ((runAll env
              (update_subscription_timestamp db1 sub.id env.now) rest).1,
            (sub, .ok its) ::
              (runAll env
                (update_subscription_timestamp db1 sub.id env.now) rest).2) := by
        simp [runAll, hfs]
      rw [hrw] at h ⊢
      have hid : sub.id ≠ i := by
        intro hcontra
        obtain ⟨e, he⟩ := h (sub, .ok its) (List.mem_cons_self _ _) hcontra
        simp at he
      rw [ih _ (fun q hq hqi => h q (List.mem_cons_of_mem _ hq) hqi)]
      rw [luById_update_timestamp_ne db1 sub.id env.now i hid]
      exact fetch_subscription_ok_luById env db sub.id sub.url sub.platform
        i db1 its hfs

/-- C4 amended witness: a concrete failing subscription keeps its NULL
last_updated. -/
theorem runAll_failed_tasks_keep_last_updated_witness :
    luById (runAll (envOf scraperRaise) dbA [subA]).1 1 = luById dbA 1 :=
  runAll_failed_tasks_keep_last_updated (envOf scraperRaise) 1 [subA] dbA
    (by
      intro q hq hqi
      rw [show (runAll (envOf scraperRaise) dbA [subA]).2 =
          [(subA, Except.error "boom")] from rfl] at hq
      rw [List.mem_singleton] at hq
      exact ⟨"boom", by rw [hq]⟩)

/-- A needle is found at the head of the text. -/
theorem startsWithL_append (p rest : List Char) :
    startsWithL (p ++ rest) p = true := by
  induction p with
  | nil => cases rest <;> rfl
  | cons c p ih => simp [startsWithL, ih]

/-- A text beginning with the needle contains it. -/
theorem containsL_append_self (p rest : List Char) :
    containsL (p ++ rest) p = true := by
  cases p with
  | nil => cases rest <;> simp [containsL, startsWithL]
  | cons c cs => simp [containsL, startsWithL, startsWithL_append]

/-- The already-running message always hits main's benign-return branch,
whatever the lock path. -/
theorem mainExitCode_alreadyRunning (lock_path : String) :
    mainExceptionExitCode (alreadyRunningMsg lock_path) = 0 := by
  have hdata : (alreadyRunningMsg lock_path).data =
      "Another update is already running".data ++
        (" (lock: ".data ++ lock_path.data ++ ")".data) := by
    show ("Another update is already running (lock: " ++ lock_path ++
        ")").data = _
    rw [String.data_append, String.data_append]
    rw [show "Another update is already running (lock: ".data =
      "Another update is already running".data ++ " (lock: ".data by decide]
    simp
  unfold mainExceptionExitCode
  rw [hdata, containsL_append_self]
  simp

/-- C7: while the lock is held, a second acquisition fails immediately (the
LOCK_NB path — no blocking wait) with the distinguishable already-running
message, which main's top-level handler treats as a benign return (exit code
0, not an error exit); releasing the holder makes the lock acquirable again;
and the with-statement releases the lock on every exit path of its body,
whether the body returned normally or raised. -/
theorem run_lock_fail_fast_and_release
    (st : LockState) (lock_path : String) (pid pid2 : Nat)
    (started started2 : String) (h : st.holder.isSome = true) :
    (∃ m, acquire_or_fail st lock_path pid started = .error m ∧
        mainExceptionExitCode m = 0) ∧
    acquire_or_fail (release st) lock_path pid2 started2 =
      .ok { holder := some (pid2, started2) } ∧
    (∀ body, (withUpdateLock st lock_path pid started body).1 =
        .error (alreadyRunningMsg lock_path) ∧
      (withUpdateLock st lock_path pid started body).2 = st) ∧
    (∀ body, withUpdateLock (release st) lock_path pid2 started2 body =
        (body, { holder := none })) := by
  obtain ⟨hd, hh⟩ : ∃ hd, st.holder = some hd := by
    cases hst : st.holder with
    | none => rw [hst] at h; simp at h
    | some hd => exact ⟨hd, rfl⟩
  refine ⟨⟨alreadyRunningMsg lock_path, ?_, mainExitCode_alreadyRunning
      lock_path⟩, ?_, fun body => ⟨?_, ?_⟩, fun body => ?_⟩
  · simp [acquire_or_fail, hh]
  · simp [acquire_or_fail, release]
  · simp [withUpdateLock, acquire_or_fail, hh]
  · simp [withUpdateLock, acquire_or_fail, hh]
  · simp [withUpdateLock, acquire_or_fail, release]

/-- C7 witness: a concrete held lock refuses a second acquisition benignly
and is reacquirable after release. -/
theorem run_lock_fail_fast_and_release_witness :
    acquire_or_fail (release ⟨some (1, "s")⟩) "/tmp/.update.lock" 2 "t" =
      .ok { holder := some (2, "t") } :=
  (run_lock_fail_fast_and_release ⟨some (1, "s")⟩ "/tmp/.update.lock" 1 2
    "s" "t" (by decide)).2.1

end LetsGoRSS
